import Mathlib

/-!
Verification of the outcome-normalization and price-resolution logic of the
PolyMath backend (`api/polymarket.js`, final revision).

The JavaScript source is shallowly embedded:

* Loosely-typed JavaScript/JSON values are modelled by the inductive `Js`
  (`undefined` and `null` are conflated into `Js.null`; the source only ever
  distinguishes them through `outcomeIndex !== undefined`, which is modelled
  separately by `Option String` request parameters).
* JavaScript numbers are modelled as rationals (`ℚ`).  All numeric values the
  code manipulates come from JSON or from arithmetic on such values, and all
  claims are about exact comparisons that the rational model preserves.
* `JSON.parse` (used inside `parseMaybeJson`) is an external primitive and is
  modelled as an oracle parameter `P : String → Option Js` (`none` = the parse
  throws); every definition and theorem is universally quantified over it.
* The two upstream HTTP fetches are inputs: the Gamma event payload is passed
  in directly, and the CLOB order-book call is an oracle
  `clob : String → ClobReply` (`ClobReply.fail` = `fetchJson` threw).
* `Number(x.toFixed(4))` is modelled by `round4` (round half up to 4 decimal
  places), and `toFixed(2)` by `round2`.
-/

attribute [local semireducible] Rat.mul Rat.add Rat.sub Rat.inv Rat.ofScientific

set_option maxRecDepth 8000

/-- A JavaScript/JSON value as delivered by the upstream APIs.  `null` also
stands for `undefined` (see the header comment). -/
inductive Js where
  | null
  | bool (b : Bool)
  | num (q : ℚ)
  | str (s : String)
  | arr (xs : List Js)
  | obj (kvs : List (String × Js))
deriving Repr

/-- JavaScript truthiness of a value (`!!v`). -/
def jsTruthy : Js → Bool
  | .null => false
  | .bool b => b
  | .num q => decide (q ≠ 0)
  | .str s => decide (s ≠ "")
  | .arr _ => true
  | .obj _ => true

/-- Optional-chaining property access `v?.k`: field lookup on objects,
`undefined` (here `Js.null`) on everything else. -/
def jsGetField (v : Js) (k : String) : Js :=
  match v with
  | .obj kvs =>
    match kvs.find? (fun kv => kv.1 == k) with
    | some kv => kv.2
    | none => .null
  | _ => .null

/-- The coercion `Array.isArray(v) ? v : []` used for `eventData?.markets`. -/
def jsAsArray : Js → List Js
  | .arr xs => xs
  | _ => []

/-- JavaScript indexing `l[i]` with an integer index: `undefined` (`Js.null`)
when out of range or negative. -/
def jsAtD (l : List Js) (i : ℤ) : Js :=
  if 0 ≤ i then l.getD i.toNat .null else .null

/-- ASCII lower-casing of one character, as `String.prototype.toLowerCase`
acts on the ASCII range (the only range the code's literals need). -/
def asciiLower (c : Char) : Char :=
  if 'A' ≤ c ∧ c ≤ 'Z' then Char.ofNat (c.toNat + 32) else c

/-- JavaScript `s.toLowerCase()` (ASCII fragment). -/
def strLower (s : String) : String := ⟨s.data.map asciiLower⟩

/-- Whitespace recognised by `String.prototype.trim` / `parseFloat`
(ASCII fragment). -/
def isJsWs (c : Char) : Bool := c = ' ' ∨ c = '\t' ∨ c = '\n' ∨ c = '\r'

/-- JavaScript `s.trim()`. -/
def strTrim (s : String) : String :=
  ⟨((s.data.dropWhile isJsWs).reverse.dropWhile isJsWs).reverse⟩

/-- Decimal digits to a natural number. -/
def digitsToNat (cs : List Char) : Nat :=
  cs.foldl (fun acc c => acc * 10 + (c.toNat - 48)) 0

/-- Smallest exponent `k ≤ 40` with `d ∣ 10 ^ k`, if any: a denominator of
this form has a finite decimal expansion.  Every number produced by parsing
JSON decimals has such a denominator. -/
def decExp (d : Nat) : Option Nat :=
  (List.range 41).find? (fun k => 10 ^ k % d == 0)

/-- Pad a numeral string with leading zeros to length `k`. -/
def natPad (s : String) (k : Nat) : String :=
  ⟨List.replicate (k - s.length) '0'⟩ ++ s

/-- Rendering of a JavaScript number as a string (`String(q)`), for numbers
with a finite decimal expansion (every JavaScript float prints as one; other
rationals cannot arise from upstream JSON and get a marker rendering). -/
def jsNumToString (q : ℚ) : String :=
  let sgn := if q < 0 then "-" else ""
  let n := q.num.natAbs
  let d := q.den
  match decExp d with
  | some k =>
    let m := n * (10 ^ k / d)
    let ip := m / 10 ^ k
    let fp := m % 10 ^ k
    if fp == 0 then sgn ++ toString ip
    else sgn ++ toString ip ++ "." ++ natPad (toString fp) k
  | none => sgn ++ toString n ++ "/" ++ toString d

mutual

/-- JavaScript `String(v)` coercion. -/
def jsToString : Js → String
  | .null => "null"
  | .bool b => if b then "true" else "false"
  | .num q => jsNumToString q
  | .str s => s
  | .arr xs => String.intercalate "," (jsArrElems xs)
  | .obj _ => "[object Object]"

/-- Stringification of array elements for `Array.prototype.toString`:
`null`/`undefined` elements print as the empty string. -/
def jsArrElems : List Js → List String
  | [] => []
  | Js.null :: vs => "" :: jsArrElems vs
  | v :: vs => jsToString v :: jsArrElems vs

end

/-- Exponent suffix of a decimal literal (`parseFloat` helper): sign and
digits; `0` when the digits are missing (then the `e` is not part of the
parsed prefix and contributes a factor of one). -/
def jsParseExp (cs : List Char) : ℤ :=
  let (sgn, ds) : ℤ × List Char := match cs with
    | '-' :: r => (-1, r.takeWhile Char.isDigit)
    | '+' :: r => (1, r.takeWhile Char.isDigit)
    | r => (1, r.takeWhile Char.isDigit)
  if ds.isEmpty then 0 else sgn * digitsToNat ds

/-- Explicit power of ten on `ℚ` for an integer exponent. -/
def ratPow10 : ℤ → ℚ
  | .ofNat n => ((10 ^ n : ℕ) : ℚ)
  | .negSucc n => mkRat 1 (10 ^ (n + 1))

/-- JavaScript `parseFloat` on a string: optional leading whitespace and sign,
then the longest decimal-literal prefix (with optional fraction and exponent);
`none` models `NaN`.  (Strings like `"Infinity"` yield a non-finite value in
JavaScript, which every caller in the source immediately replaces by its
fallback, exactly as `none` does here.) -/
def jsParseFloat (s : String) : Option ℚ :=
  let cs := s.data.dropWhile isJsWs
  let sign : ℚ := if cs.head? = some '-' then -1 else 1
  let cs := match cs with
    | '-' :: rest => rest
    | '+' :: rest => rest
    | _ => cs
  let intPart := cs.takeWhile Char.isDigit
  let rest := cs.dropWhile Char.isDigit
  let fracPart := match rest with
    | '.' :: r => r.takeWhile Char.isDigit
    | _ => []
  let rest2 := match rest with
    | '.' :: r => r.dropWhile Char.isDigit
    | _ => rest
  if intPart.isEmpty ∧ fracPart.isEmpty then none
  else
    let mantissa : ℚ :=
      (digitsToNat intPart : ℚ) + mkRat (digitsToNat fracPart) (10 ^ fracPart.length)
    let expo : ℤ := match rest2 with
      | 'e' :: r => jsParseExp r
      | 'E' :: r => jsParseExp r
      | _ => 0
    some (sign * mantissa * ratPow10 expo)

/-- JavaScript `parseInt(s, 10)`: optional leading whitespace and sign, then
leading decimal digits; `none` models `NaN`. -/
def jsParseInt (s : String) : Option ℤ :=
  let cs := s.data.dropWhile isJsWs
  let sign : ℤ := if cs.head? = some '-' then -1 else 1
  let cs := match cs with
    | '-' :: rest => rest
    | '+' :: rest => rest
    | _ => cs
  let ds := cs.takeWhile Char.isDigit
  if ds.isEmpty then none else some (sign * digitsToNat ds)

/-- Numeric coercion used by `toNumber` (source lines 410-413) with the
`Number.isFinite` test folded in: `some` iff the coerced value is a finite
number.  A non-number value is coerced through `String(x)` exactly as
`parseFloat(x)` does. -/
def toNumberOpt (x : Js) : Option ℚ :=
  match x with
  | .num q => some q
  | x => jsParseFloat (jsToString x)

/-- Source `toNumber(x, fallback)` (lines 410-413). -/
def toNumber (x : Js) (fb : ℚ) : ℚ := (toNumberOpt x).getD fb

/-- Source `clamp(n, min, max)` (lines 415-417). -/
def clamp (n lo hi : ℚ) : ℚ := min (max n lo) hi

/-- The `JSON.parse` oracle: `none` models a parse that throws. -/
def Parser := String → Option Js

/-- Source `parseMaybeJson(value, fallback)` (lines 399-408): `null` and
`undefined` give the fallback, arrays pass through, non-strings give the
fallback, and strings are parsed with the fallback on a parse error. -/
def parseMaybeJson (P : Parser) (value fallback : Js) : Js :=
  match value with
  | .null => fallback
  | .arr xs => .arr xs
  | .str s => (P s).getD fallback
  | _ => fallback

example : toNumber (.str "0.4") 0 = 0.4 := by decide
example : toNumber (.str "  12e-2x") 0 = 0.12 := by decide
example : toNumber (.str "abc") (1/2) = 1/2 := by decide
example : toNumber (.null) (1/2) = 1/2 := by decide
example : toNumber (.num 3) 0 = 3 := by decide
example : toNumber (.arr [.str "0.5"]) 0 = 1/2 := by decide
example : toNumber (.bool true) 0 = 0 := by decide
example : jsParseInt "999" = some 999 := by decide
example : jsParseInt "12.9" = some 12 := by decide
example : jsParseInt "abc" = none := by decide
example : jsParseInt "-5" = some (-5) := by decide
example : strLower (strTrim "  Yes ") = "yes" := by decide
example : jsToString (.num 0.25) = "0.25" := by decide
example : jsToString (.num 5) = "5" := by decide
example : jsToString (.arr [.str "a", .null, .num 0.5]) = "a,,0.5" := by decide

/-- Source `normOutcomeLabel(x)` (lines 419-423): `String(x ?? '')` trimmed
and lower-cased. -/
def normOutcomeLabel (x : Js) : String :=
  strLower (strTrim (jsToString (match x with | .null => .str "" | v => v)))

/-- JavaScript `Array.prototype.findIndex` (index accumulator form): the
index of the first element satisfying `p`, starting the count at `k`, and
`-1` when there is none. -/
def jsFindIndexAux (p : α → Bool) : List α → ℤ → ℤ
  | [], _ => -1
  | x :: xs, k => if p x then k else jsFindIndexAux p xs (k + 1)

/-- JavaScript `l.findIndex(p)`: first matching index or `-1`. -/
def jsFindIndex (p : α → Bool) (l : List α) : ℤ := jsFindIndexAux p l 0

/-- Source `findYesNoIndexes(outcomes)` (lines 425-430): normalize the labels
(non-arrays give the empty list) and find the first indexes of `"yes"` and
`"no"`. -/
def findYesNoIndexes (outcomes : Js) : ℤ × ℤ :=
  let outs : List String := match outcomes with
    | .arr xs => xs.map normOutcomeLabel
    | _ => []
  (jsFindIndex (fun o => o == "yes") outs, jsFindIndex (fun o => o == "no") outs)

/-- The first element of the Gamma `/events?slug=` response: the fields of
the event payload the core logic reads. -/
structure GammaEvent where
  title : Js
  markets : Js
deriving Repr

/-- Source `normalizeMarketArrays(market)` (lines 445-451): defensively
decode the three parallel lists (label list fallback `null`, price and
token-id list fallback `[]`). -/
def normalizeMarketArrays (P : Parser) (m : Js) : Js × Js × Js :=
  (parseMaybeJson P (jsGetField m "outcomes") .null,
   parseMaybeJson P (jsGetField m "outcomePrices") (.arr []),
   parseMaybeJson P (jsGetField m "clobTokenIds") (.arr []))

/-- Source `isMultiOutcomeSingleMarket(markets)` (lines 453-463).  The
source first rejects non-arrays and lists whose length is not 1; the
non-array case is the `Js`-level wrapper `isMultiOutcomeSingleMarket`
below receives. -/
def isMultiOutcomeSingleMarket (P : Parser) (markets : Js) : Bool :=
  match markets with
  | .arr [m] =>
    let n := normalizeMarketArrays P m
    match n.1, n.2.2 with
    | .arr os, .arr ts => decide (2 < os.length) && decide (ts.length = os.length)
    | _, _ => false
  | _ => false

/-- The `debug` object attached to binary outcomes (lines 539-543). -/
structure OutcomeDebug where
  gammaOutcomes : Option (List Js)
  resolvedYesIdx : ℤ
  resolvedNoIdx : Option ℤ
deriving Repr

/-- A normalized outcome as built by the two outcome builders
(lines 467-546).  `debug` is present exactly on binary outcomes. -/
structure Outcome where
  index : ℕ
  name : Js
  tokenId : Option String
  yesTokenId : Option String
  noTokenId : Option String
  yesPrice : ℚ
  noPrice : Option ℚ
  kind : String
  debug : Option OutcomeDebug
deriving Repr

/-- The emission pattern `x != null ? String(x) : null` used for token ids. -/
def jsOptStr : Js → Option String
  | .null => none
  | v => some (jsToString v)

/-- JavaScript `v.length >= n` where `v` need not be an array: arrays and
strings have a `length`, objects may carry a numeric `length` field, and on
everything else the comparison is `undefined >= n`, which is false. -/
def jsLenGe (v : Js) (n : ℕ) : Bool :=
  match v with
  | .arr xs => decide (n ≤ xs.length)
  | .str s => decide (n ≤ s.length)
  | .obj kvs =>
    match jsGetField (.obj kvs) "length" with
    | .num q => decide ((n : ℚ) ≤ q)
    | _ => false
  | _ => false

/-- `l.map((x, idx) => f idx x)` with an explicit index accumulator. -/
def mapIdxFrom (f : ℕ → α → β) : ℕ → List α → List β
  | _, [] => []
  | i, a :: as => f i a :: mapIdxFrom f (i + 1) as

/-- Source `buildOutcomesFromSingleMultiMarket(market)` (lines 467-488). -/
def buildOutcomesFromSingleMultiMarket (P : Parser) (market : Js) : List Outcome :=
  let n := normalizeMarketArrays P market
  match n.1 with
  | .arr os =>
    if os.length = 0 then []
    else
      mapIdxFrom (fun i name =>
        let tokenId : Js := match n.2.2 with
          | .arr ts => ts.getD i .null
          | _ => .null
        let price : ℚ := match n.2.1 with
          | .arr ps => toNumber (ps.getD i .null) (1/2)
          | _ => 1/2
        { index := i
          name := .str (jsToString name)
          tokenId := jsOptStr tokenId
          yesTokenId := jsOptStr tokenId
          noTokenId := none
          yesPrice := clamp price 0 1
          noPrice := none
          kind := "multi-outcome"
          debug := none }) 0 os
  | _ => []

/-- One step of `buildOutcomesFromMarketsAsOptions` (lines 492-545): the
binary outcome built from the market at position `idx`. -/
def buildBinaryOne (P : Parser) (idx : ℕ) (m : Js) : Outcome :=
  let n := normalizeMarketArrays P m
  let outcomes := n.1
  let outcomePrices := n.2.1
  let clobTokenIds := n.2.2
  let yn := findYesNoIndexes outcomes
  let fallbackNoIdx : Option ℤ := if jsLenGe outcomePrices 2 then some 1 else none
  let resolvedYesIdx : ℤ := if 0 ≤ yn.1 then yn.1 else 0
  let resolvedNoIdx : Option ℤ := if 0 ≤ yn.2 then some yn.2 else fallbackNoIdx
  let yesPrice : ℚ := match outcomePrices with
    | .arr ps => if resolvedYesIdx < (ps.length : ℤ) then toNumber (jsAtD ps resolvedYesIdx) (1/2) else 1/2
    | _ => 1/2
  let noPrice : ℚ := match resolvedNoIdx, outcomePrices with
    | some j, .arr ps => if j < (ps.length : ℤ) then toNumber (jsAtD ps j) (1/2) else clamp (1 - yesPrice) 0 1
    | _, _ => clamp (1 - yesPrice) 0 1
  let yesTokenId : Js := match clobTokenIds with
    | .arr ts => if resolvedYesIdx < (ts.length : ℤ) then jsAtD ts resolvedYesIdx else .null
    | _ => .null
  let noTokenId : Js := match resolvedNoIdx, clobTokenIds with
    | some j, .arr ts => if j < (ts.length : ℤ) then jsAtD ts j else .null
    | _, _ => .null
  { index := idx
    name := match jsGetField m "question" with
      | q => if jsTruthy q then q else .str ("Market " ++ toString (idx + 1))
    tokenId := jsOptStr yesTokenId
    yesTokenId := jsOptStr yesTokenId
    noTokenId := jsOptStr noTokenId
    yesPrice := clamp yesPrice 0 1
    noPrice := some (clamp noPrice 0 1)
    kind := "binary"
    debug := some
      { gammaOutcomes := match outcomes with
          | .arr xs => some xs
          | _ => none
        resolvedYesIdx := resolvedYesIdx
        resolvedNoIdx := resolvedNoIdx } }

/-- Source `buildOutcomesFromMarketsAsOptions(markets)` (lines 490-546):
one binary outcome per market. -/
def buildOutcomesFromMarketsAsOptions (P : Parser) (markets : List Js) : List Outcome :=
  mapIdxFrom (buildBinaryOne P) 0 markets

/-- The error values thrown by the core operations, tagged with the HTTP
status codes the handler maps them to (`err.statusCode`). -/
inductive ApiErr where
  | notFound (msg : String)
  | unsupportedShape (msg : String)
deriving Repr, DecidableEq

/-- HTTP status code carried by an error (404 / 422). -/
def ApiErr.statusCode : ApiErr → ℕ
  | .notFound _ => 404
  | .unsupportedShape _ => 422

instance {ε α : Type} [DecidableEq ε] [DecidableEq α] : DecidableEq (Except ε α) := fun a b =>
  match a, b with
  | .error e, .error f =>
    if h : e = f then .isTrue (by rw [h]) else .isFalse (by simp [h])
  | .ok x, .ok y =>
    if h : x = y then .isTrue (by rw [h]) else .isFalse (by simp [h])
  | .error _, .ok _ => .isFalse (by simp)
  | .ok _, .error _ => .isFalse (by simp)

/-- The shared classification-plus-build step that both `fetchMarketData`
(lines 580-584) and `fetchPrices` (lines 623-627) perform verbatim on the
event's market list. -/
def classifyAndBuild (P : Parser) (markets : List Js) : String × List Outcome :=
  if isMultiOutcomeSingleMarket P (.arr markets) then
    ("single-market-multi-outcome", buildOutcomesFromSingleMultiMarket P (markets.getD 0 .null))
  else
    ("market-per-option", buildOutcomesFromMarketsAsOptions P markets)

/-- One step of the source reduction `(prev, curr) => (curr.yesPrice >
prev.yesPrice ? curr : prev)` (line 593): strict comparison keeps the
earlier element on ties. -/
def bestStep (prev curr : Outcome) : Outcome :=
  if prev.yesPrice < curr.yesPrice then curr else prev

/-- Source `outcomes.reduce(..., outcomes[0])` (line 593): the first outcome
with the maximal `yesPrice`.  `none` only for the empty list, which the
caller has already ruled out. -/
def bestOutcomeOf (outcomes : List Outcome) : Option Outcome :=
  match outcomes with
  | [] => none
  | o :: _ => some (outcomes.foldl bestStep o)

/-- The success payload of `fetchMarketData` (lines 596-604), minus `slug`
(echoed input) and `timestamp`. -/
structure MarketDataResult where
  marketName : Js
  volume : ℚ
  midPrice : ℚ
  model : String
  outcomes : List Outcome
deriving Repr

/-- Source `fetchMarketData` (lines 566-608) after the Gamma fetch: the pure
computation from the event payload to the response or thrown error. -/
def fetchMarketDataCore (P : Parser) (ev : GammaEvent) : Except ApiErr MarketDataResult :=
  let markets := jsAsArray ev.markets
  if markets.length = 0 then
    .error (.notFound "No active markets for this event")
  else
    let mo := classifyAndBuild P markets
    if mo.2.length = 0 then
      .error (.unsupportedShape "Could not build outcomes for this event (unsupported Gamma shape)")
    else
      .ok
        { marketName := if jsTruthy ev.title then ev.title else .str "Polymarket Event"
          volume := markets.foldl (fun acc m => acc + toNumber (jsGetField m "volume") 0) 0
          midPrice := ((bestOutcomeOf mo.2).map Outcome.yesPrice).getD (1/2)
          model := mo.1
          outcomes := mo.2 }

/-- Result of the CLOB `/best` fetch: `fail` models `fetchJson` throwing
(non-success status, network error, timeout), `ok raw` its parsed JSON
body. -/
inductive ClobReply where
  | fail
  | ok (raw : Js)
deriving Repr

/-- Source `fetchClobBest` (lines 550-562) applied to a reply: the finite
numeric coercions of `best_bid` / `best_ask` (`none` = `null`) and the raw
body. -/
def clobValues : ClobReply → Option ℚ × Option ℚ × Js
  | .fail => (none, none, .null)
  | .ok raw =>
    (toNumberOpt (jsGetField raw "best_bid"), toNumberOpt (jsGetField raw "best_ask"), raw)

/-- Truthiness test `a || b || null` on nullable strings. -/
def strTruthy : Option String → Bool
  | some s => decide (s ≠ "")
  | none => false

/-- JavaScript `a || b || null` for nullable strings. -/
def firstTruthy (a b : Option String) : Option String :=
  if strTruthy a then a else if strTruthy b then b else none

/-- Source token/index resolution inside `fetchPrices` (lines 629-656):
either the explicit `tokenId` (when truthy) with an informational index
search, or the clamped `outcomeIndex` with the side-dependent token of the
selected outcome. -/
def resolveToken (outcomes : List Outcome) (tokenId outcomeIndex side : Option String) :
    Option String × Option ℤ :=
  let r0 : Option String := tokenId
  if ¬ strTruthy r0 then
    let idxVal : ℤ := match outcomeIndex with
      | some s => (jsParseInt s).getD 0
      | none => 0
    let safeIndex : ℤ := min (max idxVal 0) ((outcomes.length : ℤ) - 1)
    let o : Option Outcome := if 0 ≤ safeIndex then outcomes.get? safeIndex.toNat else none
    let s := strLower ((match side with | some v => if v = "" then "" else v | none => ""))
    let rt : Option String :=
      if s = "no" ∧ strTruthy (o.bind Outcome.noTokenId) then o.bind Outcome.noTokenId
      else firstTruthy (o.bind Outcome.yesTokenId) (o.bind Outcome.tokenId)
    (rt, some safeIndex)
  else
    let t := r0.getD ""
    let found := outcomes.findIdx? (fun o =>
      o.tokenId == some t || o.yesTokenId == some t || o.noTokenId == some t)
    (r0, found.map Int.ofNat)

/-- `toNumber` applied to a value that is already a finite number is the
identity; this name keeps the `toNumber(selected.noPrice, 0.5)` call visible
at its use site. -/
def toNumberQ (q : ℚ) : ℚ := q

/-- Source fallback-mid computation (lines 658-667): the selected outcome's
side-dependent price clamped to the unit interval, `0.5` when no outcome was
resolvable. -/
def fallbackMidOf (outcomes : List Outcome) (resolvedIndex : Option ℤ) (side : Option String) : ℚ :=
  match resolvedIndex with
  | some i =>
    match (if 0 ≤ i then outcomes.get? i.toNat else none) with
    | some sel =>
      let s := strLower ((match side with | some v => if v = "" then "" else v | none => ""))
      if s = "no" ∧ sel.noPrice.isSome then clamp ((sel.noPrice.map toNumberQ).getD (1/2)) 0 1
      else clamp sel.yesPrice 0 1
    | none => 1/2
  | none => 1/2

/-- Source order-book usability test (line 686): the fallback triggers iff
the bid or ask is absent/non-finite or both are exactly zero. -/
def bookUnusableVals (b a : Option ℚ) : Bool :=
  b.isNone || a.isNone || (b == some 0 && a == some 0)

/-- Source lines 686-693: fallback pricing, re-clamping, and the
`bid >= ask` enforcement, producing the final pre-rounding pair
`(bid, ask)`. -/
def finalizeBidAsk (b a : Option ℚ) (mid : ℚ) : ℚ × ℚ :=
  let p : Option ℚ × Option ℚ :=
    if bookUnusableVals b a then (some (clamp (mid * (98/100)) 0 1), some mid)
    else (b, a)
  let bid := clamp (p.1.getD (1/2)) 0 1
  let ask := clamp (p.2.getD (1/2)) 0 1
  if ask ≤ bid then (clamp (ask * (98/100)) 0 1, ask) else (bid, ask)

/-- The guarded CLOB call (lines 674-683): only a truthy resolved token is
queried; a thrown fetch is swallowed, leaving null values. -/
def clobFetch (rt : Option String) (clob : String → ClobReply) : Option ℚ × Option ℚ × Js :=
  match rt with
  | some t => if t = "" then (none, none, .null) else clobValues (clob t)
  | none => (none, none, .null)

/-- Source volume selection in `fetchPrices` (lines 695-701). -/
def pricesVolume (model : String) (markets : List Js) (resolvedIndex : Option ℤ) : ℚ :=
  if model = "single-market-multi-outcome" then
    toNumber (jsGetField (markets.getD 0 .null) "volume") 0
  else
    match resolvedIndex with
    | some i =>
      if jsTruthy (jsAtD markets i) then toNumber (jsGetField (jsAtD markets i) "volume") 0 else 0
    | none => 0

/-- `Number(x.toFixed(4))`: round half away from zero to 4 decimal places
(the values rounded by the source are all nonnegative, where "away from
zero" is "half up"). -/
def round4 (q : ℚ) : ℚ := (round (q * 10000) : ℤ) / 10000

/-- `Number(x.toFixed(2))`, as used for the spread. -/
def round2 (q : ℚ) : ℚ := (round (q * 100) : ℤ) / 100

/-- The success payload of `fetchPrices` (lines 703-729), minus `slug`,
`timestamp` and the `debug.selectedOutcome` echo of the selected outcome. -/
structure PricesResult where
  model : String
  outcomeIndex : Option ℤ
  tokenId : Option String
  bid : ℚ
  ask : ℚ
  spread : ℚ
  volume : ℚ
  usedClob : Bool
  fallbackMid : ℚ
deriving Repr

/-- Source `fetchPrices` (lines 612-733) after the Gamma fetch: the
computation from the event payload, the request parameters and the CLOB
oracle to the response or thrown error. -/
def fetchPricesCore (P : Parser) (ev : GammaEvent) (tokenId outcomeIndex side : Option String)
    (clob : String → ClobReply) : Except ApiErr PricesResult :=
  let markets := jsAsArray ev.markets
  if markets.length = 0 then
    .error (.notFound "Market not found")
  else
    let mo := classifyAndBuild P markets
    let rt := resolveToken mo.2 tokenId outcomeIndex side
    let mid := fallbackMidOf mo.2 rt.2 side
    let bav := clobFetch rt.1 clob
    let ba := finalizeBidAsk bav.1 bav.2.1 mid
    .ok
      { model := mo.1
        outcomeIndex := rt.2
        tokenId := rt.1
        bid := round4 ba.1
        ask := round4 ba.2
        spread := round2 ((ba.2 - ba.1) * 100)
        volume := pricesVolume mo.1 markets rt.2
        usedClob := jsTruthy bav.2.2
        fallbackMid := round4 mid }

section SmokeTests

example :
    let m1 : Js := .obj [("outcomes", .arr [.str "Yes", .str "No"]),
      ("outcomePrices", .arr [.str "0.4", .str "0.6"]),
      ("clobTokenIds", .arr [.str "tokY", .str "tokN"]),
      ("volume", .str "100"), ("question", .str "Q1")]
    let out := classifyAndBuild (fun _ => none) [m1]
    out.1 = "market-per-option" ∧
      (out.2.map (fun o => (o.yesPrice, o.noPrice, o.kind))) = [(0.4, some 0.6, "binary")] := by
  decide

example :
    let m1 : Js := .obj [("outcomes", .arr [.str "A", .str "B", .str "C", .str "D", .str "E"]),
      ("outcomePrices", .arr [.str "0.1", .str "0.2", .str "0.3", .str "0.15", .str "0.25"]),
      ("clobTokenIds", .arr [.str "t1", .str "t2", .str "t3", .str "t4", .str "t5"])]
    let out := classifyAndBuild (fun _ => none) [m1]
    out.1 = "single-market-multi-outcome" ∧
      out.2.map Outcome.yesPrice = [0.1, 0.2, 0.3, 0.15, 0.25] := by
  decide

example :
    let m1 : Js := .obj [("outcomes", .arr [.str "Yes", .str "No"]),
      ("outcomePrices", .arr [.str "0", .str "1"]),
      ("clobTokenIds", .arr [])]
    let ev : GammaEvent := { title := .str "E", markets := .arr [m1] }
    (fetchPricesCore (fun _ => none) ev none none none (fun _ => .fail)).map
      (fun r => (r.bid, r.ask)) = .ok (0, 0) := by
  decide

example :
    let m1 : Js := .obj [("outcomes", .arr [.str "Maybe"]),
      ("outcomePrices", .arr [.str "0.5"]),
      ("clobTokenIds", .arr [.str "tk"])]
    let ev : GammaEvent := { title := .str "E", markets := .arr [m1] }
    (fetchMarketDataCore (fun _ => none) ev).map
      (fun r => (r.model, r.outcomes.length)) = .ok ("market-per-option", 1) := by
  decide

example :
    let m1 : Js := .obj [("outcomes", .arr [.str "Yes", .str "No"]),
      ("outcomePrices", .arr [.str "0.4", .str "0.6"]),
      ("clobTokenIds", .arr [.str "tokY", .str "tokN"])]
    let ev : GammaEvent := { title := .str "E", markets := .arr [m1] }
    (fetchPricesCore (fun _ => none) ev none none none
        (fun _ => .ok (.obj [("best_bid", .num 0), ("best_ask", .num 0)]))).map
      (fun r => (r.bid, r.ask, r.usedClob, r.fallbackMid)) =
      .ok (0.392, 0.4, true, 0.4) := by
  decide

end SmokeTests

/-! ### Specification-side definitions

These restate, in the claim's own words, the conditions the code-level
definitions are compared against. -/

/-- The claim's classification condition: the market list has exactly one
element, its decoded outcome-label list is an array of length > 2, and its
decoded token-id list is an array of the same length. -/
def specMultiShape (P : Parser) (ms : List Js) : Prop :=
  ∃ m os ts, ms = [m] ∧
    parseMaybeJson P (jsGetField m "outcomes") .null = .arr os ∧
    parseMaybeJson P (jsGetField m "clobTokenIds") (.arr []) = .arr ts ∧
    2 < os.length ∧ ts.length = os.length

/-- The claim's yes-position: the first decoded label whose trimmed,
lower-cased string form is `"yes"`, with fallback position 0. -/
def specYesPos (labels : List Js) : ℕ :=
  match labels.findIdx? (fun l => normOutcomeLabel l == "yes") with
  | some i => i
  | none => 0

/-- The claim's no-position: the first decoded label matching `"no"`, with
fallback position 1 when the decoded price list has at least 2 entries and
none otherwise. -/
def specNoPos (labels : List Js) (numPrices : ℕ) : Option ℕ :=
  match labels.findIdx? (fun l => normOutcomeLabel l == "no") with
  | some i => some i
  | none => if 2 ≤ numPrices then some 1 else none

/-- The claim's "decoded price at a position, default 0.5 when missing or
malformed". -/
def specPriceAt (ps : List Js) (i : ℕ) : ℚ :=
  if i < ps.length then toNumber (ps.getD i .null) (1/2) else 1/2

/-- The claim's no-price before the final clamp: the decoded price at the
no-position if present, else `1 − yes-price` clamped to the unit interval. -/
def specNoPriceRaw (labels : List Js) (ps : List Js) : ℚ :=
  match specNoPos labels ps.length with
  | some j =>
    if j < ps.length then toNumber (ps.getD j .null) (1/2)
    else clamp (1 - specPriceAt ps (specYesPos labels)) 0 1
  | none => clamp (1 - specPriceAt ps (specYesPos labels)) 0 1

/-! ### Helper lemmas -/

theorem mapIdxFrom_length (f : ℕ → α → β) (n : ℕ) (l : List α) :
    (mapIdxFrom f n l).length = l.length := by
  induction l generalizing n with
  | nil => rfl
  | cons a as ih =>
    show (mapIdxFrom f (n + 1) as).length + 1 = as.length + 1
    rw [ih]

theorem mapIdxFrom_get? (f : ℕ → α → β) (n : ℕ) (l : List α) (i : ℕ) :
    (mapIdxFrom f n l).get? i = (l.get? i).map (f (n + i)) := by
  induction l generalizing n i with
  | nil => cases i <;> rfl
  | cons a as ih =>
    cases i with
    | zero =>
      show some (f n a) = some (f (n + 0) a)
      rw [Nat.add_zero]
    | succ j =>
      show (mapIdxFrom f (n + 1) as).get? j = (as.get? j).map (f (n + (j + 1)))
      rw [ih]
      have hn : n + 1 + j = n + (j + 1) := by omega
      rw [hn]

theorem jsFindIndexAux_eq (p : α → Bool) (l : List α) (k : ℤ) :
    jsFindIndexAux p l k = (match l.findIdx? p with
      | some i => (i : ℤ) + k
      | none => -1) := by
  induction l generalizing k with
  | nil => rfl
  | cons x xs ih =>
    show (if p x then k else jsFindIndexAux p xs (k + 1)) = _
    rw [List.findIdx?_cons]
    by_cases h : p x
    · simp [h]
    · rw [if_neg h, if_neg h, ih, List.findIdx?_succ]
      cases hfi : xs.findIdx? p with
      | none => simp [hfi]
      | some i =>
        simp only [hfi, Option.map_some']
        push_cast
        ring

theorem jsFindIndex_eq (p : α → Bool) (l : List α) :
    jsFindIndex p l = (match l.findIdx? p with
      | some i => (i : ℤ)
      | none => -1) := by
  rw [jsFindIndex, jsFindIndexAux_eq]
  cases l.findIdx? p <;> simp

theorem jsFindIndexAux_map (f : α → β) (p : β → Bool) (l : List α) (k : ℤ) :
    jsFindIndexAux p (l.map f) k = jsFindIndexAux (fun a => p (f a)) l k := by
  induction l generalizing k with
  | nil => rfl
  | cons a as ih =>
    show (if p (f a) then k else jsFindIndexAux p (as.map f) (k + 1)) =
      (if p (f a) then k else jsFindIndexAux (fun a => p (f a)) as (k + 1))
    by_cases h : p (f a) <;> simp [h, ih]

theorem jsFindIndex_map (f : α → β) (p : β → Bool) (l : List α) :
    jsFindIndex p (l.map f) = jsFindIndex (fun a => p (f a)) l :=
  jsFindIndexAux_map f p l 0

theorem clamp01_nonneg (q : ℚ) : 0 ≤ clamp q 0 1 := by
  unfold clamp
  rcases le_total q 0 with h | h
  · rw [max_eq_right h]; norm_num
  · rw [max_eq_left h]
    exact le_min h (by norm_num)

theorem clamp01_le_one (q : ℚ) : clamp q 0 1 ≤ 1 := min_le_right _ _

theorem clamp01_of_mem {q : ℚ} (h0 : 0 ≤ q) (h1 : q ≤ 1) : clamp q 0 1 = q := by
  unfold clamp
  rw [max_eq_left h0, min_eq_left h1]

theorem round4_mono {a b : ℚ} (h : a ≤ b) : round4 a ≤ round4 b := by
  unfold round4
  have h2 : round (a * 10000) ≤ round (b * 10000) := by
    rw [round_eq, round_eq]
    exact Int.floor_le_floor (by linarith)
  rw [div_le_div_iff_of_pos_right (by norm_num)]
  exact_mod_cast h2

theorem round4_nonneg {a : ℚ} (h : 0 ≤ a) : 0 ≤ round4 a := by
  have := round4_mono h
  simpa [round4] using this

theorem round4_le_one {a : ℚ} (h : a ≤ 1) : round4 a ≤ 1 := by
  have := round4_mono h
  have h1 : round4 1 = 1 := by norm_num [round4, round_eq]
  calc round4 a ≤ round4 1 := this
    _ = 1 := h1

/-- Characterization of the classifier on array inputs: it accepts exactly
the single-market payloads whose decoded label and token-id lists are arrays
with `2 < |labels|` and `|tokens| = |labels|`. -/
theorem isMultiOutcomeSingleMarket_iff (P : Parser) (ms : List Js) :
    isMultiOutcomeSingleMarket P (.arr ms) = true ↔ specMultiShape P ms := by
  match ms with
  | [] =>
    show false = true ↔ specMultiShape P []
    simp only [specMultiShape]
    constructor
    · intro h; cases h
    · rintro ⟨m, os, ts, hms, -⟩; cases hms
  | [m] =>
    show (match (normalizeMarketArrays P m).1, (normalizeMarketArrays P m).2.2 with
      | .arr os, .arr ts => decide (2 < os.length) && decide (ts.length = os.length)
      | _, _ => false) = true ↔ specMultiShape P [m]
    constructor
    · intro h
      cases h1 : (normalizeMarketArrays P m).1 with
      | arr os =>
        cases h2 : (normalizeMarketArrays P m).2.2 with
        | arr ts =>
          rw [h1, h2] at h
          simp only [Bool.and_eq_true, decide_eq_true_eq] at h
          exact ⟨m, os, ts, rfl, h1, h2, h.1, h.2⟩
        | null => rw [h1, h2] at h; cases h
        | bool b => rw [h1, h2] at h; cases h
        | num q => rw [h1, h2] at h; cases h
        | str s => rw [h1, h2] at h; cases h
        | obj kvs => rw [h1, h2] at h; cases h
      | null => rw [h1] at h; cases h
      | bool b => rw [h1] at h; cases h
      | num q => rw [h1] at h; cases h
      | str s => rw [h1] at h; cases h
      | obj kvs => rw [h1] at h; cases h
    · rintro ⟨m2, os, ts, hms, ho, ht, hlen, heq⟩
      injection hms with hm hrest
      rw [← hm] at ho ht
      rw [show (normalizeMarketArrays P m).1 = Js.arr os from ho,
        show (normalizeMarketArrays P m).2.2 = Js.arr ts from ht]
      simp [hlen, heq]
  | m1 :: m2 :: rest =>
    show false = true ↔ specMultiShape P (m1 :: m2 :: rest)
    simp only [specMultiShape]
    constructor
    · intro h; cases h
    · rintro ⟨m, os, ts, hms, -⟩
      injection hms with h1 h2
      cases h2

/-! ### C1 — shape classification -/

/-- Market fixture for the C1 scenario: one market with 5 outcome labels,
5 prices and 5 token ids. -/
def c1Market : Js :=
  .obj [("outcomes", .arr [.str "A", .str "B", .str "C", .str "D", .str "E"]),
    ("outcomePrices", .arr [.str "0.1", .str "0.2", .str "0.3", .str "0.15", .str "0.25"]),
    ("clobTokenIds", .arr [.str "t1", .str "t2", .str "t3", .str "t4", .str "t5"])]

/-- C1: the shape classification returns `single-market-multi-outcome` iff
the market list has exactly one element whose decoded outcome-label list is
an array of length > 2 and whose decoded token-id list is an array of equal
length; every other markets value (including non-arrays) is classified
`market-per-option`; and the 5-label/5-token single-market event is
classified multi-outcome with 5 outcomes carrying the decoded prices. -/
theorem c1_shape_classification :
    (∀ (P : Parser) (ms : List Js),
      isMultiOutcomeSingleMarket P (.arr ms) = true ↔ specMultiShape P ms) ∧
    (∀ (P : Parser) (v : Js), (∀ xs, v ≠ .arr xs) → isMultiOutcomeSingleMarket P v = false) ∧
    (isMultiOutcomeSingleMarket (fun _ => none) (.arr [c1Market]) = true ∧
      classifyAndBuild (fun _ => none) [c1Market] =
        ("single-market-multi-outcome", buildOutcomesFromSingleMultiMarket (fun _ => none) c1Market) ∧
      (buildOutcomesFromSingleMultiMarket (fun _ => none) c1Market).length = 5 ∧
      (buildOutcomesFromSingleMultiMarket (fun _ => none) c1Market).map Outcome.yesPrice =
        [0.1, 0.2, 0.3, 0.15, 0.25]) := by
  refine ⟨isMultiOutcomeSingleMarket_iff, ?_, ?_⟩
  · intro P v hv
    match v, hv with
    | .null, _ => rfl
    | .bool b, _ => rfl
    | .num q, _ => rfl
    | .str s, _ => rfl
    | .obj kvs, _ => rfl
    | .arr xs, hv => exact absurd rfl (hv xs)
  · refine ⟨by decide, ?_, by decide, by decide⟩
    rfl

/-- Witness for C1 at a concrete non-array input. -/
theorem c1_shape_classification_witness :
    isMultiOutcomeSingleMarket (fun _ => none) (Js.str "nope") = false :=
  c1_shape_classification.2.1 (fun _ => none) (Js.str "nope") (fun _ h => Js.noConfusion h)

/-! ### C2 — binary yes/no resolution -/

/-- Market fixture for the C2 scenario: labels `["Yes","No"]`, prices
`["0.4","0.6"]`. -/
def c2Market : Js :=
  .obj [("outcomes", .arr [.str "Yes", .str "No"]),
    ("outcomePrices", .arr [.str "0.4", .str "0.6"]),
    ("clobTokenIds", .arr [.str "tokY", .str "tokN"])]

/-- C2: under the binary path every market yields one outcome built by
`buildBinaryOne`; when the decoded labels and prices are arrays, the yes/no
positions come from the case-insensitive trimmed label match with the
claimed fallbacks, the yes-price is the decoded price at the yes position
(default 0.5) and the no-price is the decoded price at the no position if
present, else `1 − yes-price` clamped; and the `["Yes","No"]`/
`["0.4","0.6"]` market yields the binary shape with yes-price 0.4 and
no-price 0.6. -/
theorem c2_binary_yes_no_resolution :
    (∀ (P : Parser) (ms : List Js) (i : ℕ),
      (buildOutcomesFromMarketsAsOptions P ms).get? i = (ms.get? i).map (buildBinaryOne P i)) ∧
    (∀ (P : Parser) (i : ℕ) (m : Js) (labels ps : List Js),
      parseMaybeJson P (jsGetField m "outcomes") .null = .arr labels →
      parseMaybeJson P (jsGetField m "outcomePrices") (.arr []) = .arr ps →
      (buildBinaryOne P i m).kind = "binary" ∧
      (buildBinaryOne P i m).debug = some
        { gammaOutcomes := some labels
          resolvedYesIdx := (specYesPos labels : ℤ)
          resolvedNoIdx := (specNoPos labels ps.length).map Int.ofNat } ∧
      (buildBinaryOne P i m).yesPrice = clamp (specPriceAt ps (specYesPos labels)) 0 1 ∧
      (buildBinaryOne P i m).noPrice = some (clamp (specNoPriceRaw labels ps) 0 1)) ∧
    (classifyAndBuild (fun _ => none) [c2Market] =
        ("market-per-option", [buildBinaryOne (fun _ => none) 0 c2Market]) ∧
      (buildBinaryOne (fun _ => none) 0 c2Market).kind = "binary" ∧
      (buildBinaryOne (fun _ => none) 0 c2Market).yesPrice = 0.4 ∧
      (buildBinaryOne (fun _ => none) 0 c2Market).noPrice = some 0.6) := by
  refine ⟨?_, ?_, ?_⟩
  · intro P ms i
    rw [buildOutcomesFromMarketsAsOptions, mapIdxFrom_get?, Nat.zero_add]
  · intro P i m labels ps ho hp
    have ho2 : (normalizeMarketArrays P m).1 = Js.arr labels := ho
    have hp2 : (normalizeMarketArrays P m).2.1 = Js.arr ps := hp
    have hyes : jsFindIndex (fun o => o == "yes") (labels.map normOutcomeLabel) =
        (match labels.findIdx? (fun l => normOutcomeLabel l == "yes") with
          | some j => (j : ℤ)
          | none => -1) := by
      rw [jsFindIndex_map, jsFindIndex_eq]
    have hno : jsFindIndex (fun o => o == "no") (labels.map normOutcomeLabel) =
        (match labels.findIdx? (fun l => normOutcomeLabel l == "no") with
          | some j => (j : ℤ)
          | none => -1) := by
      rw [jsFindIndex_map, jsFindIndex_eq]
    simp only [buildBinaryOne, findYesNoIndexes, ho2, hp2, hyes, hno]
    cases hfy : labels.findIdx? (fun l => normOutcomeLabel l == "yes") with
    | none =>
      cases hfn : labels.findIdx? (fun l => normOutcomeLabel l == "no") with
      | none =>
        simp only [specYesPos, specNoPos, hfy, hfn, jsLenGe]
        by_cases hlen : 2 ≤ ps.length
        · simp [hlen, specPriceAt, specNoPriceRaw, specYesPos, specNoPos, hfy, hfn, jsAtD,
            Nat.cast_lt, Int.toNat_one]
        · simp [hlen, specPriceAt, specNoPriceRaw, specYesPos, specNoPos, hfy, hfn, jsAtD,
            Nat.cast_lt]
      | some jn =>
        simp only [specYesPos, specNoPos, hfy, hfn, jsLenGe]
        simp [specPriceAt, specNoPriceRaw, specYesPos, specNoPos, hfy, hfn, jsAtD, Nat.cast_lt]
    | some jy =>
      cases hfn : labels.findIdx? (fun l => normOutcomeLabel l == "no") with
      | none =>
        simp only [specYesPos, specNoPos, hfy, hfn, jsLenGe]
        by_cases hlen : 2 ≤ ps.length
        · simp [hlen, specPriceAt, specNoPriceRaw, specYesPos, specNoPos, hfy, hfn, jsAtD,
            Nat.cast_lt, Int.toNat_one]
        · simp [hlen, specPriceAt, specNoPriceRaw, specYesPos, specNoPos, hfy, hfn, jsAtD,
            Nat.cast_lt]
      | some jn =>
        simp only [specYesPos, specNoPos, hfy, hfn, jsLenGe]
        simp [specPriceAt, specNoPriceRaw, specYesPos, specNoPos, hfy, hfn, jsAtD, Nat.cast_lt]
  · refine ⟨rfl, rfl, by decide, by decide⟩

/-- Witness for C2 at the scenario market: the characterization applied to
the concrete decoded labels and prices. -/
theorem c2_binary_yes_no_resolution_witness :
    (buildBinaryOne (fun _ => none) 0 c2Market).yesPrice =
      clamp (specPriceAt [Js.str "0.4", Js.str "0.6"]
        (specYesPos [Js.str "Yes", Js.str "No"])) 0 1 :=
  (c2_binary_yes_no_resolution.2.1 (fun _ => none) 0 c2Market
    [Js.str "Yes", Js.str "No"] [Js.str "0.4", Js.str "0.6"] rfl rfl).2.2.1

/-! ### Nonemptiness of the built outcome list -/

theorem buildOutcomesFromMarketsAsOptions_length (P : Parser) (ms : List Js) :
    (buildOutcomesFromMarketsAsOptions P ms).length = ms.length :=
  mapIdxFrom_length (buildBinaryOne P) 0 ms

theorem buildOutcomesFromSingleMultiMarket_length (P : Parser) (m : Js) (os : List Js)
    (ho : (normalizeMarketArrays P m).1 = .arr os) :
    (buildOutcomesFromSingleMultiMarket P m).length = os.length := by
  simp only [buildOutcomesFromSingleMultiMarket]
  rw [ho]
  by_cases h : os.length = 0
  · simp [h]
  · simp only [h, if_false]
    exact mapIdxFrom_length _ 0 os

theorem classifyAndBuild_snd_length_pos (P : Parser) (markets : List Js)
    (h : markets ≠ []) : 0 < (classifyAndBuild P markets).2.length := by
  unfold classifyAndBuild
  by_cases hm : isMultiOutcomeSingleMarket P (.arr markets) = true
  · rw [if_pos hm]
    obtain ⟨m, os, ts, hms, ho, ht, hlen, heq⟩ :=
      (isMultiOutcomeSingleMarket_iff P markets).mp hm
    subst hms
    rw [show ([m].getD 0 .null) = m from rfl,
      buildOutcomesFromSingleMultiMarket_length P m os ho]
    omega
  · rw [if_neg hm]
    simp only [buildOutcomesFromMarketsAsOptions_length]
    exact List.length_pos.mpr h

theorem fetchMarketDataCore_isOk (P : Parser) (ev : GammaEvent)
    (h : jsAsArray ev.markets ≠ []) : (fetchMarketDataCore P ev).isOk = true := by
  unfold fetchMarketDataCore
  rw [if_neg (by simpa using fun hh => h (List.length_eq_zero.mp hh))]
  rw [if_neg (by
    have := classifyAndBuild_snd_length_pos P (jsAsArray ev.markets) h
    omega)]
  rfl

theorem fetchPricesCore_isOk (P : Parser) (ev : GammaEvent)
    (tid oi side : Option String) (clob : String → ClobReply)
    (h : jsAsArray ev.markets ≠ []) :
    (fetchPricesCore P ev tid oi side clob).isOk = true := by
  unfold fetchPricesCore
  rw [if_neg (by simpa using fun hh => h (List.length_eq_zero.mp hh))]
  rfl

/-! ### C3 — empty outcome list and UnsupportedShape (corrected) -/

/-- Event fixture for the C3 scenario: a single market whose outcome-label
list has exactly one element. -/
def c3Event : GammaEvent :=
  { title := .str "One label"
    markets := .arr [.obj [("outcomes", .arr [.str "Maybe"]),
      ("outcomePrices", .arr [.str "0.5"]),
      ("clobTokenIds", .arr [.str "tk"])]] }

/-- Counterexample to C3: the claim's own scenario (single market, 1-element
outcome-label list) does not fail with UnsupportedShape/422 — both
operations succeed, the event being handled by the binary path with one
outcome. -/
theorem c3_counterexample :
    (fetchMarketDataCore (fun _ => none) c3Event).map
        (fun r => (r.model, r.outcomes.length)) = .ok ("market-per-option", 1) ∧
    (fetchPricesCore (fun _ => none) c3Event none none none (fun _ => .fail)).isOk = true := by
  constructor
  · decide
  · decide

/-- C3 as amended: with a non-empty market list the built outcome list is
never empty, so neither operation ever reaches an UnsupportedShape failure:
`fetchMarketData` (whose dead guard is the only 422 site) and `fetchPrices`
(which has no such guard at all) both succeed, and in particular the
1-label-market event yields a market-per-option success with one outcome. -/
theorem c3_amended :
    (∀ (P : Parser) (ev : GammaEvent), jsAsArray ev.markets ≠ [] →
      (fetchMarketDataCore P ev).isOk = true) ∧
    (∀ (P : Parser) (ev : GammaEvent) (tid oi side : Option String)
      (clob : String → ClobReply), jsAsArray ev.markets ≠ [] →
      (fetchPricesCore P ev tid oi side clob).isOk = true) ∧
    (fetchMarketDataCore (fun _ => none) c3Event).map
      (fun r => (r.model, r.outcomes.length)) = .ok ("market-per-option", 1) := by
  refine ⟨fetchMarketDataCore_isOk, ?_, by decide⟩
  intro P ev tid oi side clob h
  exact fetchPricesCore_isOk P ev tid oi side clob h

/-- Witness for the amended C3 at the concrete 1-label event. -/
theorem c3_amended_witness :
    (fetchMarketDataCore (fun _ => none) c3Event).isOk = true ∧
    (fetchPricesCore (fun _ => none) c3Event none none none (fun _ => .fail)).isOk = true :=
  ⟨c3_amended.1 (fun _ => none) c3Event (fun h => List.noConfusion h),
   c3_amended.2.1 (fun _ => none) c3Event none none none (fun _ => .fail)
     (fun h => List.noConfusion h)⟩

/-! ### C9 — outcome list nonemptiness and dead 422 guard -/

/-- C9: the binary builder emits exactly one outcome per market; the
multi-outcome builder is selected only for one-market events whose decoded
label list has length > 2, and then emits one outcome per label; hence the
built list is non-empty whenever the market list is, and the
UnsupportedShape branch of `fetchMarketData` is unreachable. -/
theorem c9_outcomes_nonempty :
    (∀ (P : Parser) (ms : List Js),
      (buildOutcomesFromMarketsAsOptions P ms).length = ms.length) ∧
    (∀ (P : Parser) (ms : List Js), isMultiOutcomeSingleMarket P (.arr ms) = true →
      ∃ m os, ms = [m] ∧ (normalizeMarketArrays P m).1 = .arr os ∧ 2 < os.length ∧
        (buildOutcomesFromSingleMultiMarket P m).length = os.length) ∧
    (∀ (P : Parser) (ms : List Js), ms ≠ [] → (classifyAndBuild P ms).2 ≠ []) ∧
    (∀ (P : Parser) (ev : GammaEvent) (msg : String),
      fetchMarketDataCore P ev ≠ .error (.unsupportedShape msg)) := by
  refine ⟨buildOutcomesFromMarketsAsOptions_length, ?_, ?_, ?_⟩
  · intro P ms hm
    obtain ⟨m, os, ts, hms, ho, ht, hlen, heq⟩ := (isMultiOutcomeSingleMarket_iff P ms).mp hm
    exact ⟨m, os, hms, ho, hlen, buildOutcomesFromSingleMultiMarket_length P m os ho⟩
  · intro P ms h hc
    have := classifyAndBuild_snd_length_pos P ms h
    rw [hc] at this
    simp at this
  · intro P ev msg
    unfold fetchMarketDataCore
    by_cases h : (jsAsArray ev.markets).length = 0
    · rw [if_pos h]
      simp
    · rw [if_neg h]
      rw [if_neg (by
        have := classifyAndBuild_snd_length_pos P (jsAsArray ev.markets)
          (fun hh => h (by rw [hh]; rfl))
        omega)]
      simp

/-- Witness for C9 at a concrete one-label event. -/
theorem c9_outcomes_nonempty_witness :
    (classifyAndBuild (fun _ => none) [Js.obj [("outcomes", Js.arr [Js.str "Maybe"])]]).2 ≠ [] :=
  c9_outcomes_nonempty.2.2.1 (fun _ => none) _ (fun h => List.noConfusion h)

/-! ### The stable-max reduction (for C6) -/

theorem foldl_bestStep_spec (l : List Outcome) (a : Outcome) :
    (∀ x ∈ l, x.yesPrice ≤ (l.foldl bestStep a).yesPrice) ∧
    a.yesPrice ≤ (l.foldl bestStep a).yesPrice ∧
    (l.foldl bestStep a = a ∨
      ∃ i, ∃ hi : i < l.length, l.foldl bestStep a = l.get ⟨i, hi⟩ ∧
        a.yesPrice < (l.foldl bestStep a).yesPrice ∧
        ∀ j, ∀ hj : j < l.length, j < i →
          (l.get ⟨j, hj⟩).yesPrice < (l.foldl bestStep a).yesPrice) := by
  induction l generalizing a with
  | nil => exact ⟨by simp, le_refl _, Or.inl rfl⟩
  | cons x xs ih =>
    obtain ⟨H1, H2, H3⟩ := ih (bestStep a x)
    have hstep : (x :: xs).foldl bestStep a = xs.foldl bestStep (bestStep a x) := rfl
    have hax : a.yesPrice ≤ (bestStep a x).yesPrice := by
      unfold bestStep
      by_cases h : a.yesPrice < x.yesPrice
      · rw [if_pos h]; exact le_of_lt h
      · rw [if_neg h]
    have hxx : x.yesPrice ≤ (bestStep a x).yesPrice := by
      unfold bestStep
      by_cases h : a.yesPrice < x.yesPrice
      · rw [if_pos h]
      · rw [if_neg h]; exact le_of_not_lt h
    refine ⟨?_, ?_, ?_⟩
    · intro y hy
      rw [hstep]
      rcases List.mem_cons.mp hy with rfl | hy2
      · exact le_trans hxx H2
      · exact H1 y hy2
    · rw [hstep]
      exact le_trans hax H2
    · rw [hstep]
      by_cases hcmp : a.yesPrice < x.yesPrice
      · have hbs : bestStep a x = x := by unfold bestStep; rw [if_pos hcmp]
        rw [hbs] at H3 H2 H1 ⊢
        rcases H3 with heq | ⟨i2, hi2, heq, hlt, hprior⟩
        · right
          refine ⟨0, by simp, by simpa using heq, ?_, ?_⟩
          · rw [heq]; exact hcmp
          · intro j hj hj0; omega
        · right
          refine ⟨i2 + 1, by simpa using hi2, by simpa using heq, ?_, ?_⟩
          · exact lt_trans hcmp hlt
          · intro j hj hji
            cases j with
            | zero => exact hlt
            | succ j2 =>
              exact hprior j2 (by simpa using hj) (by omega)
      · have hbs : bestStep a x = a := by unfold bestStep; rw [if_neg hcmp]
        rw [hbs] at H3 H2 H1 ⊢
        rcases H3 with heq | ⟨i2, hi2, heq, hlt, hprior⟩
        · left; exact heq
        · right
          refine ⟨i2 + 1, by simpa using hi2, by simpa using heq, hlt, ?_⟩
          intro j hj hji
          cases j with
          | zero => exact lt_of_le_of_lt (le_of_not_lt hcmp) hlt
          | succ j2 =>
            exact hprior j2 (by simpa using hj) (by omega)

theorem bestOutcomeOf_spec (os : List Outcome) (h : os ≠ []) :
    ∃ b, bestOutcomeOf os = some b ∧
      ∃ i, ∃ hi : i < os.length, b = os.get ⟨i, hi⟩ ∧
        (∀ j, ∀ hj : j < os.length, (os.get ⟨j, hj⟩).yesPrice ≤ b.yesPrice) ∧
        ∀ j, ∀ hj : j < os.length, j < i → (os.get ⟨j, hj⟩).yesPrice < b.yesPrice := by
  match os, h with
  | o :: rest, _ =>
    have hinit : (o :: rest).foldl bestStep o = rest.foldl bestStep o := by
      show rest.foldl bestStep (bestStep o o) = _
      unfold bestStep
      rw [if_neg (lt_irrefl _)]
    obtain ⟨H1, H2, H3⟩ := foldl_bestStep_spec rest o
    refine ⟨rest.foldl bestStep o, by rw [bestOutcomeOf, hinit], ?_⟩
    rcases H3 with heq | ⟨i2, hi2, heq, hlt, hprior⟩
    · refine ⟨0, by simp, heq, ?_, ?_⟩
      · intro j hj
        cases j with
        | zero => exact H2
        | succ j2 =>
          exact H1 _ (List.get_mem rest _ _)
      · intro j hj hj0; omega
    · refine ⟨i2 + 1, by simpa using hi2, by simpa using heq, ?_, ?_⟩
      · intro j hj
        cases j with
        | zero => exact H2
        | succ j2 => exact H1 _ (List.get_mem rest _ _)
      · intro j hj hji
        cases j with
        | zero => exact hlt
        | succ j2 => exact hprior j2 (by simpa using hj) (by omega)

/-! ### C6 — total volume and representative mid-price -/

theorem foldl_add_volume (l : List Js) (a : ℚ) :
    l.foldl (fun acc m => acc + toNumber (jsGetField m "volume") 0) a =
      a + (l.map (fun m => toNumber (jsGetField m "volume") 0)).sum := by
  induction l generalizing a with
  | nil => simp
  | cons m ms ih =>
    rw [List.foldl_cons, ih, List.map_cons, List.sum_cons]
    ring

/-- Event fixture for the C6 witness: two binary markets with volumes 100
and 200 and yes-prices 0.6 and 0.3. -/
def c6Event : GammaEvent :=
  { title := .str "Two markets"
    markets := .arr
      [.obj [("outcomes", .arr [.str "Yes", .str "No"]),
        ("outcomePrices", .arr [.str "0.6", .str "0.4"]),
        ("clobTokenIds", .arr [.str "a1", .str "a2"]),
        ("volume", .num 100), ("question", .str "A")],
       .obj [("outcomes", .arr [.str "Yes", .str "No"]),
        ("outcomePrices", .arr [.str "0.3", .str "0.7"]),
        ("clobTokenIds", .arr [.str "b1", .str "b2"]),
        ("volume", .num 200), ("question", .str "B")]] }

/-- C6: every market-data success reports as volume the sum of the markets'
numeric-coerced volumes, and as mid-price the price of the first outcome
attaining the maximal price (stable max-scan: earlier outcomes win ties). -/
theorem c6_volume_and_midprice :
    ∀ (P : Parser) (ev : GammaEvent) (r : MarketDataResult),
      fetchMarketDataCore P ev = .ok r →
      r.volume = ((jsAsArray ev.markets).map (fun m => toNumber (jsGetField m "volume") 0)).sum ∧
      ∃ i, ∃ hi : i < r.outcomes.length,
        r.midPrice = (r.outcomes.get ⟨i, hi⟩).yesPrice ∧
        (∀ j, ∀ hj : j < r.outcomes.length, (r.outcomes.get ⟨j, hj⟩).yesPrice ≤ r.midPrice) ∧
        (∀ j, ∀ hj : j < r.outcomes.length, j < i →
          (r.outcomes.get ⟨j, hj⟩).yesPrice < r.midPrice) := by
  intro P ev r h
  unfold fetchMarketDataCore at h
  by_cases h0 : (jsAsArray ev.markets).length = 0
  · rw [if_pos h0] at h; cases h
  rw [if_neg h0] at h
  by_cases h1 : (classifyAndBuild P (jsAsArray ev.markets)).2.length = 0
  · rw [if_pos h1] at h; cases h
  rw [if_neg h1] at h
  injection h with h2
  subst h2
  dsimp only
  constructor
  · rw [foldl_add_volume, zero_add]
  · have hne : (classifyAndBuild P (jsAsArray ev.markets)).2 ≠ [] := by
      intro hc; exact h1 (by rw [hc]; rfl)
    obtain ⟨b, hb, i, hi, hbi, hall, hprior⟩ := bestOutcomeOf_spec _ hne
    have hmid : ((bestOutcomeOf (classifyAndBuild P (jsAsArray ev.markets)).2).map
        Outcome.yesPrice).getD (1/2) = b.yesPrice := by rw [hb]; rfl
    rw [hmid]
    exact ⟨i, hi, by rw [hbi], hall, hprior⟩

/-- Witness for C6 at the two-market event: volume is the sum of the two
coerced volumes. -/
theorem c6_volume_and_midprice_witness :
    (fetchMarketDataCore (fun _ => none) c6Event).map MarketDataResult.volume =
      .ok (((jsAsArray c6Event.markets).map (fun m => toNumber (jsGetField m "volume") 0)).sum) := by
  cases hr : fetchMarketDataCore (fun _ => none) c6Event with
  | error e =>
    have hok : (fetchMarketDataCore (fun _ => none) c6Event).isOk = true := by decide
    rw [hr] at hok
    cases hok
  | ok r =>
    have h := (c6_volume_and_midprice (fun _ => none) c6Event r hr).1
    show Except.ok (MarketDataResult.volume r) = _
    rw [h]

/-! ### C7 — outcome index resolution -/

/-- Event fixture for the C7 scenario: three binary markets. -/
def c7Event : GammaEvent :=
  { title := .str "Three options"
    markets := .arr
      [.obj [("outcomes", .arr [.str "Yes", .str "No"]),
        ("outcomePrices", .arr [.str "0.2", .str "0.8"]),
        ("clobTokenIds", .arr [.str "a1", .str "a2"]), ("question", .str "A")],
       .obj [("outcomes", .arr [.str "Yes", .str "No"]),
        ("outcomePrices", .arr [.str "0.3", .str "0.7"]),
        ("clobTokenIds", .arr [.str "b1", .str "b2"]), ("question", .str "B")],
       .obj [("outcomes", .arr [.str "Yes", .str "No"]),
        ("outcomePrices", .arr [.str "0.5", .str "0.5"]),
        ("clobTokenIds", .arr [.str "c1", .str "c2"]), ("question", .str "C")]] }

/-- C7: without an explicit token id the resolved outcome index is 0 when
the parameter is absent, 0 when it does not parse to a finite integer, and
otherwise the parsed integer clamped into `[0, outcomes.length − 1]`;
`outcomeIndex=999` on a 3-outcome event resolves to index 2 with a success
response. -/
theorem c7_outcome_index_resolution :
    (∀ (outcomes : List Outcome) (side : Option String), 0 < outcomes.length →
      (resolveToken outcomes none none side).2 = some 0) ∧
    (∀ (outcomes : List Outcome) (side : Option String) (s : String), 0 < outcomes.length →
      jsParseInt s = none →
      (resolveToken outcomes none (some s) side).2 = some 0) ∧
    (∀ (outcomes : List Outcome) (side : Option String) (s : String) (k : ℤ),
      jsParseInt s = some k →
      (resolveToken outcomes none (some s) side).2 =
        some (min (max k 0) ((outcomes.length : ℤ) - 1))) ∧
    ((fetchPricesCore (fun _ => none) c7Event none (some "999") none (fun _ => .fail)).map
        (fun r => r.outcomeIndex) = .ok (some 2) ∧
      (fetchPricesCore (fun _ => none) c7Event none (some "999") none
        (fun _ => .fail)).isOk = true) := by
  refine ⟨?_, ?_, ?_, by decide, by decide⟩
  · intro outcomes side h
    show some (min (max (0 : ℤ) 0) ((outcomes.length : ℤ) - 1)) = some 0
    rw [max_self]
    rw [min_eq_left (by
      have : (1 : ℤ) ≤ (outcomes.length : ℤ) := by exact_mod_cast h
      omega)]
  · intro outcomes side s h hs
    show some (min (max ((jsParseInt s).getD 0) 0) ((outcomes.length : ℤ) - 1)) = some 0
    rw [hs]
    show some (min (max (0 : ℤ) 0) ((outcomes.length : ℤ) - 1)) = some 0
    rw [max_self]
    rw [min_eq_left (by
      have : (1 : ℤ) ≤ (outcomes.length : ℤ) := by exact_mod_cast h
      omega)]
  · intro outcomes side s k hk
    show some (min (max ((jsParseInt s).getD 0) 0) ((outcomes.length : ℤ) - 1)) = _
    rw [hk]
    rfl

/-- Witness for C7: the parsed index 999 clamps to 2 on the three outcomes
of the fixture event. -/
theorem c7_outcome_index_resolution_witness :
    (resolveToken (classifyAndBuild (fun _ => none) (jsAsArray c7Event.markets)).2
      none (some "999") none).2 =
      some (min (max (999 : ℤ) 0)
        (((classifyAndBuild (fun _ => none) (jsAsArray c7Event.markets)).2.length : ℤ) - 1)) :=
  c7_outcome_index_resolution.2.2.1 _ none "999" 999 (by decide)

/-! ### C8 — all returned prices lie in [0, 1] -/

theorem mapIdxFrom_mem {f : ℕ → α → β} {n : ℕ} {l : List α} {b : β}
    (h : b ∈ mapIdxFrom f n l) : ∃ i a, b = f i a := by
  induction l generalizing n with
  | nil => cases h
  | cons x xs ih =>
    rcases List.mem_cons.mp h with heq | hmem
    · exact ⟨n, x, heq⟩
    · exact ih hmem

theorem finalizeBidAsk_shape (b a : Option ℚ) (mid : ℚ) :
    ∃ b0 a0, finalizeBidAsk b a mid =
      if clamp a0 0 1 ≤ clamp b0 0 1 then
        (clamp (clamp a0 0 1 * (98/100)) 0 1, clamp a0 0 1)
      else (clamp b0 0 1, clamp a0 0 1) :=
  ⟨_, _, rfl⟩

theorem finalizeBidAsk_mem (b a : Option ℚ) (mid : ℚ) :
    (0 ≤ (finalizeBidAsk b a mid).1 ∧ (finalizeBidAsk b a mid).1 ≤ 1) ∧
    (0 ≤ (finalizeBidAsk b a mid).2 ∧ (finalizeBidAsk b a mid).2 ≤ 1) := by
  obtain ⟨b0, a0, heq⟩ := finalizeBidAsk_shape b a mid
  rw [heq]
  split
  · exact ⟨⟨clamp01_nonneg _, clamp01_le_one _⟩, ⟨clamp01_nonneg _, clamp01_le_one _⟩⟩
  · exact ⟨⟨clamp01_nonneg _, clamp01_le_one _⟩, ⟨clamp01_nonneg _, clamp01_le_one _⟩⟩

/-- Event fixture for the C8 witness: out-of-range upstream prices. -/
def c8Event : GammaEvent :=
  { title := .str "Out of range"
    markets := .arr [.obj [("outcomes", .arr [.str "Yes", .str "No"]),
      ("outcomePrices", .arr [.str "1.7", .str "-0.5"]),
      ("clobTokenIds", .arr [.str "x1", .str "x2"])]] }

/-- C8: every returned bid and ask and every built outcome's yes-price and
(when present) no-price lie in the closed unit interval, for arbitrary
upstream values. -/
theorem c8_prices_in_unit_interval :
    (∀ (P : Parser) (ev : GammaEvent) (tid oi side : Option String)
      (clob : String → ClobReply) (r : PricesResult),
      fetchPricesCore P ev tid oi side clob = .ok r →
      (0 ≤ r.bid ∧ r.bid ≤ 1) ∧ (0 ≤ r.ask ∧ r.ask ≤ 1)) ∧
    (∀ (P : Parser) (ms : List Js) (o : Outcome),
      o ∈ buildOutcomesFromMarketsAsOptions P ms →
      (0 ≤ o.yesPrice ∧ o.yesPrice ≤ 1) ∧
      ∀ np, o.noPrice = some np → 0 ≤ np ∧ np ≤ 1) ∧
    (∀ (P : Parser) (m : Js) (o : Outcome),
      o ∈ buildOutcomesFromSingleMultiMarket P m →
      (0 ≤ o.yesPrice ∧ o.yesPrice ≤ 1) ∧
      ∀ np, o.noPrice = some np → 0 ≤ np ∧ np ≤ 1) := by
  refine ⟨?_, ?_, ?_⟩
  · intro P ev tid oi side clob r h
    unfold fetchPricesCore at h
    by_cases h0 : (jsAsArray ev.markets).length = 0
    · rw [if_pos h0] at h; cases h
    rw [if_neg h0] at h
    injection h with h2
    rw [← h2]
    dsimp only
    obtain ⟨⟨hb0, hb1⟩, ha0, ha1⟩ := finalizeBidAsk_mem
      (clobFetch (resolveToken (classifyAndBuild P (jsAsArray ev.markets)).2 tid oi side).1 clob).1
      (clobFetch (resolveToken (classifyAndBuild P (jsAsArray ev.markets)).2 tid oi side).1 clob).2.1
      (fallbackMidOf (classifyAndBuild P (jsAsArray ev.markets)).2
        (resolveToken (classifyAndBuild P (jsAsArray ev.markets)).2 tid oi side).2 side)
    exact ⟨⟨round4_nonneg hb0, round4_le_one hb1⟩, ⟨round4_nonneg ha0, round4_le_one ha1⟩⟩
  · intro P ms o h
    obtain ⟨i, m, rfl⟩ := mapIdxFrom_mem h
    constructor
    · exact ⟨clamp01_nonneg _, clamp01_le_one _⟩
    · intro np hnp
      obtain ⟨q, hq⟩ : ∃ q, (buildBinaryOne P i m).noPrice = some (clamp q 0 1) := ⟨_, rfl⟩
      rw [hq] at hnp
      injection hnp with h3
      rw [← h3]
      exact ⟨clamp01_nonneg _, clamp01_le_one _⟩
  · intro P m o h
    simp only [buildOutcomesFromSingleMultiMarket] at h
    cases hn : (normalizeMarketArrays P m).1 with
    | arr os =>
      rw [hn] at h
      dsimp only at h
      by_cases hlen : os.length = 0
      · rw [if_pos hlen] at h; cases h
      · rw [if_neg hlen] at h
        obtain ⟨i, nm, rfl⟩ := mapIdxFrom_mem h
        refine ⟨⟨clamp01_nonneg _, clamp01_le_one _⟩, ?_⟩
        intro np hnp
        cases hnp
    | null => rw [hn] at h; cases h
    | bool b => rw [hn] at h; cases h
    | num q => rw [hn] at h; cases h
    | str s => rw [hn] at h; cases h
    | obj kvs => rw [hn] at h; cases h

/-- Witness for C8 at the out-of-range event: the returned bid and ask
remain inside the unit interval. -/
theorem c8_prices_in_unit_interval_witness :
    (fetchPricesCore (fun _ => none) c8Event none none none (fun _ => .fail)).map
      (fun r => (decide (0 ≤ r.bid), decide (r.bid ≤ 1), decide (0 ≤ r.ask), decide (r.ask ≤ 1))) =
      .ok (true, true, true, true) := by
  cases hr : fetchPricesCore (fun _ => none) c8Event none none none (fun _ => .fail) with
  | error e =>
    have hok : (fetchPricesCore (fun _ => none) c8Event none none none
      (fun _ => .fail)).isOk = true := by decide
    rw [hr] at hok
    cases hok
  | ok r =>
    obtain ⟨⟨h1, h2⟩, h3, h4⟩ := c8_prices_in_unit_interval.1 (fun _ => none) c8Event
      none none none (fun _ => .fail) r hr
    show Except.ok _ = _
    simp [h1, h2, h3, h4]

/-! ### C4 — the bid/ask ordering invariant (corrected) -/

theorem clamp01_scale_le (q : ℚ) (h0 : 0 ≤ q) : clamp (q * (98/100)) 0 1 ≤ q := by
  unfold clamp
  have hq : 0 ≤ q * (98/100) := by positivity
  rw [max_eq_left hq]
  calc min (q * (98/100)) 1 ≤ q * (98/100) := min_le_left _ _
    _ ≤ q := by nlinarith

theorem finalizeBidAsk_le (b a : Option ℚ) (mid : ℚ) :
    (finalizeBidAsk b a mid).1 ≤ (finalizeBidAsk b a mid).2 := by
  obtain ⟨b0, a0, heq⟩ := finalizeBidAsk_shape b a mid
  rw [heq]
  split
  · exact clamp01_scale_le _ (clamp01_nonneg a0)
  · next h => exact le_of_lt (lt_of_not_le h)

theorem finalizeBidAsk_strict (b a : Option ℚ) (mid : ℚ)
    (hpos : 0 < (finalizeBidAsk b a mid).2) :
    (finalizeBidAsk b a mid).1 < (finalizeBidAsk b a mid).2 := by
  obtain ⟨b0, a0, heq⟩ := finalizeBidAsk_shape b a mid
  rw [heq] at hpos ⊢
  split at hpos
  · next h =>
    rw [if_pos h]
    dsimp only at hpos ⊢
    have h1 : clamp a0 0 1 ≤ 1 := clamp01_le_one a0
    have h2 : clamp a0 0 1 * (98/100) ≤ 1 := by nlinarith
    have h3 : 0 ≤ clamp a0 0 1 * (98/100) := by positivity
    rw [clamp01_of_mem h3 h2]
    nlinarith
  · next h =>
    rw [if_neg h]
    dsimp only at hpos ⊢
    exact lt_of_not_le h

/-- Event fixture for the C4 counterexample: the selected outcome's decoded
yes-price is 0, no token ids are available, so the fallback mid-price is
exactly 0. -/
def c4Event : GammaEvent :=
  { title := .str "Degenerate"
    markets := .arr [.obj [("outcomes", .arr [.str "Yes", .str "No"]),
      ("outcomePrices", .arr [.str "0", .str "1"]),
      ("clobTokenIds", .arr [])]] }

/-- Counterexample to C4: with fallback mid-price 0 the returned pair is
bid = ask = 0, so the returned bid is not strictly less than the returned
ask. -/
theorem c4_counterexample :
    (fetchPricesCore (fun _ => none) c4Event none none none (fun _ => .fail)).map
      (fun r => (r.bid, r.ask, decide (r.bid < r.ask))) = .ok (0, 0, false) := by
  decide

/-- C4 as amended: every returned pair satisfies bid ≤ ask (not strictly),
and before the 4-decimal rounding the bid is strictly below the ask
whenever the ask is positive — strictness can only fail at ask = 0 (and
where rounding collapses a positive gap). -/
theorem c4_amended :
    (∀ (P : Parser) (ev : GammaEvent) (tid oi side : Option String)
      (clob : String → ClobReply) (r : PricesResult),
      fetchPricesCore P ev tid oi side clob = .ok r → r.bid ≤ r.ask) ∧
    (∀ (b a : Option ℚ) (mid : ℚ), 0 < (finalizeBidAsk b a mid).2 →
      (finalizeBidAsk b a mid).1 < (finalizeBidAsk b a mid).2) := by
  constructor
  · intro P ev tid oi side clob r h
    unfold fetchPricesCore at h
    by_cases h0 : (jsAsArray ev.markets).length = 0
    · rw [if_pos h0] at h; cases h
    rw [if_neg h0] at h
    injection h with h2
    rw [← h2]
    dsimp only
    exact round4_mono (finalizeBidAsk_le _ _ _)
  · exact finalizeBidAsk_strict

/-- Witness for the amended C4: the degenerate event satisfies bid ≤ ask,
and a positive fallback mid gives a strictly smaller pre-rounding bid. -/
theorem c4_amended_witness :
    (fetchPricesCore (fun _ => none) c4Event none none none (fun _ => .fail)).map
        (fun r => decide (r.bid ≤ r.ask)) = .ok true ∧
    (finalizeBidAsk none none (0.4 : ℚ)).1 < (finalizeBidAsk none none (0.4 : ℚ)).2 := by
  constructor
  · cases hr : fetchPricesCore (fun _ => none) c4Event none none none (fun _ => .fail) with
    | error e =>
      have hok : (fetchPricesCore (fun _ => none) c4Event none none none
        (fun _ => .fail)).isOk = true := by decide
      rw [hr] at hok
      cases hok
    | ok r =>
      have h := c4_amended.1 (fun _ => none) c4Event none none none (fun _ => .fail) r hr
      show Except.ok _ = _
      simp [h]
  · exact c4_amended.2 none none 0.4 (by decide)

/-! ### C5 — graceful fallback pricing -/

theorem fallbackMidOf_mem (outcomes : List Outcome) (ri : Option ℤ) (side : Option String) :
    0 ≤ fallbackMidOf outcomes ri side ∧ fallbackMidOf outcomes ri side ≤ 1 := by
  unfold fallbackMidOf
  cases ri with
  | none => norm_num
  | some i =>
    dsimp only
    cases hsel : (if 0 ≤ i then outcomes.get? i.toNat else none) with
    | none => norm_num
    | some sel =>
      dsimp only
      split
      · exact ⟨clamp01_nonneg _, clamp01_le_one _⟩
      · exact ⟨clamp01_nonneg _, clamp01_le_one _⟩

theorem finalizeBidAsk_unusable (b a : Option ℚ) (mid : ℚ)
    (hm0 : 0 ≤ mid) (hm1 : mid ≤ 1) (hu : bookUnusableVals b a = true) :
    finalizeBidAsk b a mid = (clamp (mid * (98/100)) 0 1, mid) := by
  unfold finalizeBidAsk
  rw [if_pos hu]
  dsimp only [Option.getD]
  have hb : clamp (clamp (mid * (98/100)) 0 1) 0 1 = clamp (mid * (98/100)) 0 1 :=
    clamp01_of_mem (clamp01_nonneg _) (clamp01_le_one _)
  have ha : clamp mid 0 1 = mid := clamp01_of_mem hm0 hm1
  rw [hb, ha]
  split
  · rfl
  · rfl

/-- Event fixture for the C5 scenario. -/
def c5Event : GammaEvent :=
  { title := .str "Fallback"
    markets := .arr [.obj [("outcomes", .arr [.str "Yes", .str "No"]),
      ("outcomePrices", .arr [.str "0.4", .str "0.6"]),
      ("clobTokenIds", .arr [.str "tokY", .str "tokN"])]] }

/-- CLOB oracle for the C5 scenario: the order book reports
`best_bid = 0, best_ask = 0`. -/
def c5Clob : String → ClobReply :=
  fun _ => .ok (.obj [("best_bid", .num 0), ("best_ask", .num 0)])

/-- C5: whenever a token was resolved and the order-book query fails or
yields unusable values (absent, non-finite, or both exactly zero), the
response is still a success with ask = the fallback mid-price and
bid = mid × 0.98 clamped to [0,1] (both rounded to 4 decimals on output). -/
theorem c5_fallback_pricing :
    ∀ (P : Parser) (ev : GammaEvent) (tid oi side : Option String)
      (clob : String → ClobReply) (t : String),
      (jsAsArray ev.markets).length ≠ 0 →
      (resolveToken (classifyAndBuild P (jsAsArray ev.markets)).2 tid oi side).1 = some t →
      bookUnusableVals (clobFetch (some t) clob).1 (clobFetch (some t) clob).2.1 = true →
      (fetchPricesCore P ev tid oi side clob).map (fun r => (r.ask, r.bid)) =
        .ok (round4 (fallbackMidOf (classifyAndBuild P (jsAsArray ev.markets)).2
              (resolveToken (classifyAndBuild P (jsAsArray ev.markets)).2 tid oi side).2 side),
            round4 (clamp (fallbackMidOf (classifyAndBuild P (jsAsArray ev.markets)).2
              (resolveToken (classifyAndBuild P (jsAsArray ev.markets)).2 tid oi side).2 side
              * (98/100)) 0 1)) := by
  intro P ev tid oi side clob t h0 hrt hu
  unfold fetchPricesCore
  rw [if_neg h0]
  dsimp only
  rw [hrt]
  have hmem := fallbackMidOf_mem (classifyAndBuild P (jsAsArray ev.markets)).2
    (resolveToken (classifyAndBuild P (jsAsArray ev.markets)).2 tid oi side).2 side
  rw [finalizeBidAsk_unusable _ _ _ hmem.1 hmem.2 hu]
  rfl

/-- Witness for C5: the scenario order book (`best_bid = 0, best_ask = 0`)
triggers the fallback on the fixture event. -/
theorem c5_fallback_pricing_witness :
    (fetchPricesCore (fun _ => none) c5Event none none none c5Clob).map
      (fun r => (r.ask, r.bid)) =
      .ok (round4 (fallbackMidOf (classifyAndBuild (fun _ => none) (jsAsArray c5Event.markets)).2
            (resolveToken (classifyAndBuild (fun _ => none) (jsAsArray c5Event.markets)).2
              none none none).2 none),
          round4 (clamp (fallbackMidOf (classifyAndBuild (fun _ => none) (jsAsArray c5Event.markets)).2
            (resolveToken (classifyAndBuild (fun _ => none) (jsAsArray c5Event.markets)).2
              none none none).2 none * (98/100)) 0 1)) :=
  c5_fallback_pricing (fun _ => none) c5Event none none none c5Clob "tokY"
    (by decide) (by decide) (by decide)

/-! ### C10 — deterministic, stateless normalization -/

/-- C10: outcome normalization is a pure function of the parsed event and
the JSON parser's behaviour — two invocations with identical inputs produce
identical classifications and outcome lists, with no hidden state. -/
theorem c10_deterministic_normalization :
    ∀ (P1 P2 : Parser) (ms1 ms2 : List Js), P1 = P2 → ms1 = ms2 →
      classifyAndBuild P1 ms1 = classifyAndBuild P2 ms2 ∧
      buildOutcomesFromSingleMultiMarket P1 (ms1.getD 0 .null) =
        buildOutcomesFromSingleMultiMarket P2 (ms2.getD 0 .null) ∧
      buildOutcomesFromMarketsAsOptions P1 ms1 = buildOutcomesFromMarketsAsOptions P2 ms2 := by
  rintro P1 P2 ms1 ms2 rfl rfl
  exact ⟨rfl, rfl, rfl⟩

/-- Witness for C10 at a concrete repeated invocation. -/
theorem c10_deterministic_normalization_witness :
    classifyAndBuild (fun _ => none) [Js.obj [("outcomes", Js.arr [Js.str "Yes", Js.str "No"])]] =
      classifyAndBuild (fun _ => none) [Js.obj [("outcomes", Js.arr [Js.str "Yes", Js.str "No"])]] :=
  (c10_deterministic_normalization (fun _ => none) (fun _ => none) _ _ rfl rfl).1
